import Mathlib

/-!
Verification of the RWUSD launcher script (run_rwusd_account.py) against its
natural-language specification.  The launcher parses command-line arguments,
resolves credentials from arguments or environment variables, derives a lock
file path from the account id, acquires the lock, invokes the trading cycle,
reports the aggregate result, and exits.  The trading cycle engine and the
LockFile class live in modules outside the visible source; where a claim
depends on them they are modelled from the specification, and each such
definition says so in its doc comment.
-/

namespace RwUsd

/-- Python float values are IEEE binary64 numbers, every one of which is a
dyadic rational m / 2 ^ e.  The launcher declares per-round-amount and
target-amount with argparse type float (source lines 70-82), so the values
those options can carry are exactly a subset of this set. -/
def IsPyFloat (q : ℚ) : Prop := ∃ (m : ℤ) (e : ℕ), q * 2 ^ e = (m : ℚ)

/-- The type of values an argparse option declared with type float can hold. -/
def PyFloat : Type := {q : ℚ // IsPyFloat q}

/-- The rational value of a Python float. -/
def PyFloat.val (x : PyFloat) : ℚ := Subtype.val x

instance : DecidableEq PyFloat := fun a b =>
  decidable_of_iff (Subtype.val a = Subtype.val b) Subtype.ext_iff.symm

/-- Every integer is representable as a Python float (small integers are
exact in binary64). -/
def pyFloatOfInt (n : ℤ) : PyFloat := ⟨(n : ℚ), n, 0, by norm_num⟩

/-- Python truthiness of an Optional str value: None and the empty string are
falsy, any non-empty string is truthy. -/
def truthy : Option String → Bool
  | none => false
  | some s => !(s == "")

/-- Embedding of get_config_from_env_or_args (source lines 130-143):
return arg_value if it is truthy, else os.getenv(env_key). -/
def get_config_from_env_or_args (env : String → Option String)
    (env_key : String) (arg_value : Option String) : Option String :=
  if truthy arg_value then arg_value else env env_key

/-- The parsed command-line arguments, one field per argparse declaration in
parse_args (source lines 34-127).  per-round-amount and target-amount are
declared with type float, retry-wait-seconds with type int. -/
structure Args where
  account_id : String
  api_key : Option String
  api_secret : Option String
  proxy : Option String
  per_round_amount : PyFloat
  target_amount : Option PyFloat
  retry_wait_seconds : ℤ
  must_profit : Bool
  lock_dir : Option String
  log_level : String
  log_file : Option String

/-- Embedding of the lock path computation in main (source lines 171-176):
lock_dir defaults to project_root / ".locks", and the file name is
"rwusd_" ++ account_id ++ ".lock".  Paths are modelled as component lists. -/
def lock_file_path (project_root : List String) (lock_dir : Option String)
    (account_id : String) : List String :=
  (match lock_dir with
   | some d => [d]
   | none => project_root ++ [".locks"]) ++
    ["rwusd_" ++ account_id ++ ".lock"]

/-- Modelled from the spec: the CycleState owned by the TradingCycleEngine
(spec section 3); the engine itself is in mybian.app.rwusd_service, outside
the visible source. -/
structure CycleState where
  total_cycles : ℕ
  total_operated : ℚ
  total_profit : ℚ
  deriving DecidableEq

/-- The all-zero state the engine starts from. -/
def initState : CycleState := ⟨0, 0, 0⟩

/-- Modelled from the spec: the per-round outcomes the engine can observe
from the exchange (spec section 4.2): a settled conversion with a realized
profit, a round skipped by the profitability gate, or a transient error
followed by a retry. -/
inductive RoundOutcome
  | settled (profit : ℚ)
  | gateSkip
  | transientRetry
  deriving DecidableEq

/-- Record a committed amount in front of an engine result. -/
def consAmt (a : ℚ) (r : CycleState × List ℚ) : CycleState × List ℚ :=
  (r.1, a :: r.2)

/-- Modelled from the spec: the TradingCycleEngine loop (spec section 4.2),
which is in mybian.app.rwusd_service, outside the visible source.  Each
iteration consumes one oracle outcome: when a target is set and the remaining
capacity is not positive the loop completes; otherwise a settled round commits
min(per_round_amount, remaining) and accumulates totals, while a gate skip or
a transient retry leaves the state unchanged.  Returns the final state and the
list of committed amounts in order. -/
def runCycle (per : ℚ) (target : Option ℚ) :
    CycleState → List RoundOutcome → CycleState × List ℚ
  | st, [] => (st, [])
  | st, o :: rest =>
    match target with
    | some t =>
      if t - st.total_operated ≤ 0 then (st, [])
      else
        match o with
        | .settled p =>
          consAmt (min per (t - st.total_operated))
            (runCycle per target
              ⟨st.total_cycles + 1,
               st.total_operated + min per (t - st.total_operated),
               st.total_profit + p⟩ rest)
        | _ => runCycle per target st rest
    | none =>
      match o with
      | .settled p =>
        consAmt per
          (runCycle per target
            ⟨st.total_cycles + 1, st.total_operated + per,
             st.total_profit + p⟩ rest)
      | _ => runCycle per target st rest

/-- Proof artifact: with per_round_amount 20 and target 50, the sequence of
amounts the engine has yet to commit, as a function of the amount operated so
far. -/
def expectedRest (operated : ℚ) : List ℚ :=
  if operated = 0 then [20, 20, 10]
  else if operated = 20 then [20, 10]
  else if operated = 40 then [10]
  else []

/-- The result dictionary the launcher receives from execute_trading_cycle
(accessed at source lines 200-204). -/
structure CycleResult where
  total_cycles : ℕ
  total_operated : ℚ
  total_profit : ℚ
  avg_profit_rate : Option ℚ
  deriving DecidableEq

/-- Modelled from the spec: the Result snapshot built at loop termination
(spec sections 3 and 6): avg_profit_rate is total_profit / total_operated
* 100, defined only when total_operated > 0, and explicitly undefined
otherwise. -/
def mkResult (st : CycleState) : CycleResult :=
  ⟨st.total_cycles, st.total_operated, st.total_profit,
   if 0 < st.total_operated then some (st.total_profit / st.total_operated * 100)
   else none⟩

/-- The observable events of one launcher run, in order: lock acquisition and
release, service construction, invocation of the trading cycle with the
values actually passed, the report lines, and the process exit code. -/
inductive Event
  | acquiredLock (path : List String)
  | releasedLock
  | serviceCreated (api_key api_secret proxy : Option String)
  | cycleInvoked (per_round_amount : ℚ) (target_amount : Option ℚ)
      (retry_wait_seconds : ℤ) (must_profit : Bool)
  | reportTotals (total_cycles : ℕ) (total_operated total_profit : ℚ)
  | reportAvg (rate : Option ℚ)
  | exit (code : ℕ)
  deriving DecidableEq

/-- Embedding of the report block in main (source lines 198-205): the totals
are always logged, and the average profit rate line is logged only when
total_operated > 0. -/
def reportEvents (r : CycleResult) : List Event :=
  Event.reportTotals r.total_cycles r.total_operated r.total_profit ::
    (if 0 < r.total_operated then [Event.reportAvg r.avg_profit_rate] else [])

/-- Outcome of entering the LockFile context manager.  Modelled from the
spec for the part outside the visible source: acquisition either succeeds or
raises the lock-held error, which the launcher catches as RuntimeError
(source lines 179-210). -/
inductive AcquireOutcome
  | ok
  | heldError (msg : String)
  deriving DecidableEq

/-- Outcome of the body of the with block: the trading cycle returns a
result, or a KeyboardInterrupt, a RuntimeError, or any other exception
propagates out of it (handled at source lines 207-216). -/
inductive CycleOutcome
  | normal (r : CycleResult)
  | keyboardInterrupt
  | runtimeError (msg : String)
  | otherError (msg : String)
  deriving DecidableEq

/-- Embedding of main (source lines 146-216) as a trace of events.  The
resolution of credentials, the truthiness check, the lock path, and the
handler structure are taken directly from the source; the guaranteed
execution of the LockFile exit handler on every path out of the with block
is the Python with-statement semantics, with the release action itself
modelled from the spec (section 4.1).  A normal return from main ends the
process with exit status 0. -/
def mainRun (project_root : List String) (env : String → Option String)
    (a : Args) (acq : AcquireOutcome) (cyc : CycleOutcome) : List Event :=
  let api_key := get_config_from_env_or_args env "BINANCE_API_KEY" a.api_key
  let api_secret := get_config_from_env_or_args env "BINANCE_API_SECRET" a.api_secret
  let proxy := get_config_from_env_or_args env "BINANCE_PROXY" a.proxy
  if !truthy api_key || !truthy api_secret then
    [Event.exit 1]
  else
    match acq with
    | .heldError _ => [Event.exit 1]
    | .ok =>
      Event.acquiredLock (lock_file_path project_root a.lock_dir a.account_id) ::
      Event.serviceCreated api_key api_secret proxy ::
      Event.cycleInvoked (PyFloat.val a.per_round_amount)
        (Option.map PyFloat.val a.target_amount)
        a.retry_wait_seconds a.must_profit ::
      match cyc with
      | .normal r => reportEvents r ++ [Event.releasedLock, Event.exit 0]
      | .keyboardInterrupt => [Event.releasedLock, Event.exit 0]
      | .runtimeError _ => [Event.releasedLock, Event.exit 1]
      | .otherError _ => [Event.releasedLock, Event.exit 1]

/-- Checks that a trace is well scoped with respect to the lock: starting
from the given holding state, every exit event and the end of the trace are
reached with the lock not held, so any acquired lock is released before the
process exits. -/
def scopeOk (holding : Bool) : List Event → Bool
  | [] => !holding
  | Event.acquiredLock _ :: rest => scopeOk true rest
  | Event.releasedLock :: rest => scopeOk false rest
  | Event.exit _ :: rest => !holding && scopeOk holding rest
  | _ :: rest => scopeOk holding rest

/-- The two boolean flags that share the must_profit destination in
parse_args (source lines 91-103). -/
inductive ProfitFlag
  | mustProfit
  | noMustProfit
  deriving DecidableEq

/-- The argparse action of each flag: store_true for --must-profit and
store_false for --no-must-profit; each occurrence overwrites the
destination. -/
def applyProfitFlag : Bool → ProfitFlag → Bool
  | _, .mustProfit => true
  | _, .noMustProfit => false

/-- The must_profit value argparse produces for a command line containing the
given flag occurrences in order, starting from the declared default True
(source lines 91-103): argparse applies each action as it parses the flag. -/
def parseMustProfit (flags : List ProfitFlag) : Bool :=
  flags.foldl applyProfitFlag true

/-- A concrete environment supplying every variable, for witnesses. -/
def envEx : String → Option String := fun _ => some "k"

/-- Concrete arguments with a negative per-round amount of -5 USDT and the
other fields at their argparse defaults. -/
def argsNeg : Args :=
  ⟨"acct1", none, none, none, pyFloatOfInt (-5), none, 5, true, none, "INFO", none⟩

/-- Concrete arguments with the argparse defaults and a bounded target. -/
def argsEx : Args :=
  ⟨"acct1", none, none, none, pyFloatOfInt 10, some (pyFloatOfInt 50), 5, true,
   none, "INFO", none⟩

/-- A concrete empty result, for witnesses. -/
def resEx : CycleResult := mkResult initState

/-- The decimal number 1/10 (the decimal literal 0.1) is not a dyadic
rational, hence not a Python float value. -/
theorem one_tenth_not_pyfloat : ¬ IsPyFloat (1 / 10) := by
  rintro ⟨m, e, h⟩
  have h2 : (2 : ℚ) ^ e = 10 * m := by rw [← h]; ring
  have hz : (2 : ℤ) ^ e = 10 * m := by exact_mod_cast h2
  have h5 : (5 : ℤ) ∣ 2 ^ e := ⟨2 * m, by linarith⟩
  have hp : Prime (5 : ℤ) := by norm_num
  have h52 : (5 : ℤ) ∣ 2 := hp.dvd_of_dvd_pow h5
  omega

/-- C1 counterexample: the claim says the per-round and target amounts are
exact decimal quantities, but the launcher declares them with argparse type
float, whose value set contains only dyadic rationals: no value of that type
equals the decimal 0.1. -/
theorem C1_decimal_counterexample : ¬ ∃ x : PyFloat, PyFloat.val x = 1 / 10 := by
  rintro ⟨⟨q, hq⟩, hval⟩
  exact one_tenth_not_pyfloat (hval ▸ hq)

/-- C1 (amended): the per_round_amount and target_amount supplied to the
trading cycle are IEEE binary floating-point values (dyadic rationals), not
exact decimals: every Args value carries only dyadic rationals in those
fields, and the decimal 0.1 is not among the representable values. -/
theorem C1_amounts_are_binary_floats :
    (∀ a : Args, IsPyFloat (PyFloat.val a.per_round_amount) ∧
      ∀ t : PyFloat, a.target_amount = some t → IsPyFloat (PyFloat.val t)) ∧
    ¬ IsPyFloat (1 / 10) :=
  ⟨fun a => ⟨a.per_round_amount.2, fun t _ => t.2⟩, one_tenth_not_pyfloat⟩

/-- Witness for C1 (amended) at the concrete arguments with target 50. -/
theorem C1_amounts_witness : IsPyFloat (PyFloat.val (pyFloatOfInt 50)) :=
  (C1_amounts_are_binary_floats.1 argsEx).2 (pyFloatOfInt 50) rfl

/-- C3: when lock acquisition raises the lock-held error, the run produces
nothing but a non-zero exit: no service instance, no cycle invocation, no
round, just exit status 1. -/
theorem C3_lock_held_aborts :
    ∀ (root : List String) (env : String → Option String) (a : Args)
      (m : String) (cyc : CycleOutcome),
      mainRun root env a (AcquireOutcome.heldError m) cyc = [Event.exit 1] := by
  intro root env a m cyc
  simp [mainRun]

/-- C5: the lock record path is derived deterministically from the account
id: with an explicit lock directory d it is d/rwusd_A.lock, and with no lock
directory it is project_root/.locks/rwusd_A.lock. -/
theorem C5_lock_path_deterministic :
    ∀ (root : List String) (A : String),
      (∀ d : String,
        lock_file_path root (some d) A = [d, "rwusd_" ++ A ++ ".lock"]) ∧
      lock_file_path root none A =
        root ++ [".locks", "rwusd_" ++ A ++ ".lock"] := by
  intro root A
  constructor
  · intro d; rfl
  · simp [lock_file_path]

/-- C9: credential and proxy resolution returns the command-line value when
it is truthy (a non-empty string) and falls back to the environment variable
when the argument is absent or the empty string. -/
theorem C9_config_resolution :
    ∀ (env : String → Option String) (key : String) (arg : Option String),
      get_config_from_env_or_args env key arg =
        match arg with
        | none => env key
        | some s => if s = "" then env key else some s := by
  intro env key arg
  cases arg with
  | none => rfl
  | some s =>
    by_cases h : s = ""
    · simp [get_config_from_env_or_args, truthy, h]
    · simp [get_config_from_env_or_args, truthy, h]

/-- C10 counterexample: the claim says must_profit is false whenever
--no-must-profit is given and that --must-profit never changes the outcome,
but argparse applies the two actions in command-line order, so the flag list
[--no-must-profit, --must-profit] yields true while [--no-must-profit] alone
yields false. -/
theorem C10_flag_order_counterexample :
    parseMustProfit [ProfitFlag.noMustProfit, ProfitFlag.mustProfit] = true ∧
    parseMustProfit [ProfitFlag.noMustProfit] = false :=
  ⟨rfl, rfl⟩

/-- C10 (amended): must_profit defaults to true, the last occurring flag
wins (so the value is false exactly when the command line ends its
must-profit flags with --no-must-profit), and --must-profit is a no-op on
any command line that does not contain --no-must-profit. -/
theorem C10_amended_last_flag_wins :
    parseMustProfit [] = true ∧
    (∀ flags : List ProfitFlag,
      parseMustProfit flags =
        (flags.getLast?).elim true (applyProfitFlag true)) ∧
    (∀ flags : List ProfitFlag, ProfitFlag.noMustProfit ∉ flags →
      parseMustProfit flags = true) := by
  refine ⟨rfl, fun flags => ?_, fun flags h => ?_⟩
  · induction flags using List.reverseRecOn with
    | nil => rfl
    | append_singleton l f ih =>
      cases f <;>
        simp [parseMustProfit, List.foldl_append, applyProfitFlag]
  · induction flags with
    | nil => rfl
    | cons f t ih =>
      have hf : f = ProfitFlag.mustProfit := by
        cases f
        · rfl
        · exact absurd (List.mem_cons_self _ _) h
      subst hf
      have ht : ProfitFlag.noMustProfit ∉ t := fun hm => h (List.mem_cons_of_mem _ hm)
      simpa [parseMustProfit, applyProfitFlag] using ih ht

/-- Witness for C10 (amended): a command line with only --must-profit keeps
must_profit true. -/
theorem C10_amended_witness : parseMustProfit [ProfitFlag.mustProfit] = true :=
  C10_amended_last_flag_wins.2.2 [ProfitFlag.mustProfit] (by decide)

/-- C2: on every execution path of main — missing credentials, failed or
successful lock acquisition, normal cycle completion, KeyboardInterrupt,
RuntimeError, or any other exception — the trace is well scoped: whenever
the lock was acquired it is released again before any process exit and
before the trace ends. -/
theorem C2_lock_released_on_all_paths :
    ∀ (root : List String) (env : String → Option String) (a : Args)
      (acq : AcquireOutcome) (cyc : CycleOutcome),
      scopeOk false (mainRun root env a acq cyc) = true := by
  intro root env a acq cyc
  cases acq <;> cases cyc <;>
    (simp only [mainRun, reportEvents];
      split <;> first | rfl | (split <;> rfl))

/-- C4 counterexample: the claim says the launcher rejects a non-positive
per_round_amount before the trading cycle runs, but with per-round-amount -5
and valid credentials the launcher invokes the trading cycle with the
negative amount. -/
theorem C4_no_validation_counterexample :
    ((-5 : ℚ) < 0) ∧
    Event.cycleInvoked (-5) none 5 true ∈
      mainRun [] envEx argsNeg AcquireOutcome.ok (CycleOutcome.normal resEx) := by
  constructor
  · norm_num
  · decide

/-- C4 (amended): the launcher performs no range validation of the numeric
parameters: whenever the credentials resolve to truthy values, the parsed
per_round_amount, target_amount, retry_wait_seconds and must_profit are
passed to the trading cycle unchanged, whatever their sign; the only
validation is that a falsy api_key (or api_secret) makes the run exit with
status 1 before anything else happens. -/
theorem C4_amended_no_range_validation :
    (∀ (root : List String) (env : String → Option String) (a : Args)
        (cyc : CycleOutcome),
      truthy (get_config_from_env_or_args env "BINANCE_API_KEY" a.api_key) = true →
      truthy (get_config_from_env_or_args env "BINANCE_API_SECRET" a.api_secret) = true →
      Event.cycleInvoked (PyFloat.val a.per_round_amount)
          (Option.map PyFloat.val a.target_amount)
          a.retry_wait_seconds a.must_profit
        ∈ mainRun root env a AcquireOutcome.ok cyc) ∧
    (∀ (root : List String) (env : String → Option String) (a : Args)
        (acq : AcquireOutcome) (cyc : CycleOutcome),
      truthy (get_config_from_env_or_args env "BINANCE_API_KEY" a.api_key) = false →
      mainRun root env a acq cyc = [Event.exit 1]) := by
  constructor
  · intro root env a cyc h1 h2
    simp [mainRun, h1, h2]
  · intro root env a acq cyc h1
    simp [mainRun, h1]

/-- Witness for C4 (amended) at concrete arguments with per-round amount 10
and target 50. -/
theorem C4_amended_witness :
    Event.cycleInvoked (PyFloat.val (pyFloatOfInt 10))
        (Option.map PyFloat.val (some (pyFloatOfInt 50))) 5 true ∈
      mainRun [] envEx argsEx AcquireOutcome.ok CycleOutcome.keyboardInterrupt :=
  C4_amended_no_range_validation.1 [] envEx argsEx CycleOutcome.keyboardInterrupt
    (by decide) (by decide)

/-- C6: with valid credentials and the lock acquired, a RuntimeError or any
other exception propagating out of the trading cycle makes the process exit
with status 1, while a KeyboardInterrupt makes it exit with status 0. -/
theorem C6_exit_semantics :
    ∀ (root : List String) (env : String → Option String) (a : Args),
      truthy (get_config_from_env_or_args env "BINANCE_API_KEY" a.api_key) = true →
      truthy (get_config_from_env_or_args env "BINANCE_API_SECRET" a.api_secret) = true →
      (∀ m, (mainRun root env a AcquireOutcome.ok
          (CycleOutcome.otherError m)).getLast? = some (Event.exit 1)) ∧
      (∀ m, (mainRun root env a AcquireOutcome.ok
          (CycleOutcome.runtimeError m)).getLast? = some (Event.exit 1)) ∧
      (mainRun root env a AcquireOutcome.ok
          CycleOutcome.keyboardInterrupt).getLast? = some (Event.exit 0) := by
  intro root env a h1 h2
  refine ⟨fun m => ?_, fun m => ?_, ?_⟩ <;> simp [mainRun, h1, h2, List.getLast?]

/-- Witness for C6 at a concrete environment and arguments. -/
theorem C6_exit_semantics_witness :
    (mainRun [] envEx argsEx AcquireOutcome.ok
        (CycleOutcome.otherError "boom")).getLast? = some (Event.exit 1) ∧
    (mainRun [] envEx argsEx AcquireOutcome.ok
        CycleOutcome.keyboardInterrupt).getLast? = some (Event.exit 0) := by
  have h := C6_exit_semantics [] envEx argsEx (by decide) (by decide)
  exact ⟨h.1 "boom", h.2.2⟩

/-- C7: the launcher logs the average profit rate line exactly when
total_operated > 0, and the Result built by the engine defines
avg_profit_rate as total_profit / total_operated * 100 when
total_operated > 0 and as undefined (none) when total_operated = 0. -/
theorem C7_avg_profit_rate :
    (∀ r : CycleResult,
      (∃ v, Event.reportAvg v ∈ reportEvents r) ↔ 0 < r.total_operated) ∧
    (∀ st : CycleState, 0 < st.total_operated →
      (mkResult st).avg_profit_rate
        = some (st.total_profit / st.total_operated * 100)) ∧
    (∀ st : CycleState, st.total_operated = 0 →
      (mkResult st).avg_profit_rate = none) := by
  refine ⟨fun r => ?_, fun st h => ?_, fun st h => ?_⟩
  · constructor
    · rintro ⟨v, hv⟩
      by_contra hop
      simp [reportEvents, hop] at hv
    · intro hop
      exact ⟨r.avg_profit_rate, by simp [reportEvents, hop]⟩
  · simp [mkResult, h]
  · simp [mkResult, h]

/-- Witness for C7 at the result of one settled round of amount 5 with
profit 2, and at the empty run. -/
theorem C7_avg_profit_rate_witness :
    (∃ v, Event.reportAvg v ∈ reportEvents (mkResult ⟨1, 5, 2⟩)) ∧
    (mkResult ⟨1, 5, 2⟩).avg_profit_rate = some (2 / 5 * 100) ∧
    (mkResult ⟨0, 0, 0⟩).avg_profit_rate = none := by
  refine ⟨(C7_avg_profit_rate.1 (mkResult ⟨1, 5, 2⟩)).mpr (by norm_num [mkResult]),
    ?_, C7_avg_profit_rate.2.2 ⟨0, 0, 0⟩ rfl⟩
  have h := C7_avg_profit_rate.2.1 ⟨1, 5, 2⟩ (by norm_num)
  simpa using h

/-- The first component of consAmt is the underlying final state. -/
theorem consAmt_fst (a : ℚ) (r : CycleState × List ℚ) : (consAmt a r).1 = r.1 :=
  rfl

/-- The second component of consAmt prepends the committed amount. -/
theorem consAmt_snd (a : ℚ) (r : CycleState × List ℚ) :
    (consAmt a r).2 = a :: r.2 :=
  rfl

/-- In bounded mode the engine never drives total_operated past the target:
each settled round commits min(per_round_amount, remaining), which is at
most the remaining capacity. -/
theorem runCycle_operated_le (per t : ℚ) :
    ∀ (outs : List RoundOutcome) (st : CycleState),
      st.total_operated ≤ t →
      (runCycle per (some t) st outs).1.total_operated ≤ t := by
  intro outs
  induction outs with
  | nil => intro st h; exact h
  | cons o rest ih =>
    intro st h
    cases o with
    | settled p =>
      simp only [runCycle]
      split
      · exact h
      · rw [consAmt_fst]
        apply ih
        have hmin : min per (t - st.total_operated) ≤ t - st.total_operated :=
          min_le_right _ _
        show st.total_operated + min per (t - st.total_operated) ≤ t
        linarith
    | gateSkip =>
      simp only [runCycle]
      split
      · exact h
      · exact ih st h
    | transientRetry =>
      simp only [runCycle]
      split
      · exact h
      · exact ih st h

/-- With per_round_amount 20 and target 50, starting from any of the
reachable operated totals 0, 20, 40, 50, the committed amounts of the rest
of the run form an initial segment of the expected remainder. -/
theorem runCycle_committed_front :
    ∀ (outs : List RoundOutcome) (st : CycleState),
      st.total_operated = 0 ∨ st.total_operated = 20 ∨
        st.total_operated = 40 ∨ st.total_operated = 50 →
      ∃ t2, (runCycle 20 (some 50) st outs).2 ++ t2
        = expectedRest st.total_operated := by
  intro outs
  induction outs with
  | nil =>
    intro st h
    refine ⟨expectedRest st.total_operated, ?_⟩
    rw [runCycle]
    simp
  | cons o rest ih =>
    intro st h
    rcases h with h | h | h | h
    · cases o with
      | settled p =>
        simp only [runCycle]
        rw [h, if_neg (by norm_num : ¬((50 : ℚ) - 0 ≤ 0))]
        rw [(by norm_num : min (20 : ℚ) (50 - 0) = 20)]
        rw [(by norm_num : (0 : ℚ) + 20 = 20)]
        obtain ⟨t2, ht2⟩ :=
          ih ⟨st.total_cycles + 1, 20, st.total_profit + p⟩ (Or.inr (Or.inl rfl))
        refine ⟨t2, ?_⟩
        rw [consAmt_snd, List.cons_append, ht2]
        norm_num [expectedRest]
      | gateSkip =>
        simp only [runCycle]
        rw [h, if_neg (by norm_num : ¬((50 : ℚ) - 0 ≤ 0))]
        simpa [h] using ih st (Or.inl h)
      | transientRetry =>
        simp only [runCycle]
        rw [h, if_neg (by norm_num : ¬((50 : ℚ) - 0 ≤ 0))]
        simpa [h] using ih st (Or.inl h)
    · cases o with
      | settled p =>
        simp only [runCycle]
        rw [h, if_neg (by norm_num : ¬((50 : ℚ) - 20 ≤ 0))]
        rw [(by norm_num : min (20 : ℚ) (50 - 20) = 20)]
        rw [(by norm_num : (20 : ℚ) + 20 = 40)]
        obtain ⟨t2, ht2⟩ :=
          ih ⟨st.total_cycles + 1, 40, st.total_profit + p⟩
            (Or.inr (Or.inr (Or.inl rfl)))
        refine ⟨t2, ?_⟩
        rw [consAmt_snd, List.cons_append, ht2]
        norm_num [expectedRest]
      | gateSkip =>
        simp only [runCycle]
        rw [h, if_neg (by norm_num : ¬((50 : ℚ) - 20 ≤ 0))]
        simpa [h] using ih st (Or.inr (Or.inl h))
      | transientRetry =>
        simp only [runCycle]
        rw [h, if_neg (by norm_num : ¬((50 : ℚ) - 20 ≤ 0))]
        simpa [h] using ih st (Or.inr (Or.inl h))
    · cases o with
      | settled p =>
        simp only [runCycle]
        rw [h, if_neg (by norm_num : ¬((50 : ℚ) - 40 ≤ 0))]
        rw [(by norm_num : min (20 : ℚ) (50 - 40) = 10)]
        rw [(by norm_num : (40 : ℚ) + 10 = 50)]
        obtain ⟨t2, ht2⟩ :=
          ih ⟨st.total_cycles + 1, 50, st.total_profit + p⟩
            (Or.inr (Or.inr (Or.inr rfl)))
        refine ⟨t2, ?_⟩
        rw [consAmt_snd, List.cons_append, ht2]
        norm_num [expectedRest]
      | gateSkip =>
        simp only [runCycle]
        rw [h, if_neg (by norm_num : ¬((50 : ℚ) - 40 ≤ 0))]
        simpa [h] using ih st (Or.inr (Or.inr (Or.inl h)))
      | transientRetry =>
        simp only [runCycle]
        rw [h, if_neg (by norm_num : ¬((50 : ℚ) - 40 ≤ 0))]
        simpa [h] using ih st (Or.inr (Or.inr (Or.inl h)))
    · cases o <;>
        (simp only [runCycle];
          rw [h, if_pos (by norm_num : (50 : ℚ) - 50 ≤ 0)];
          exact ⟨expectedRest 50, by simp [h]⟩)

/-- C8: each settled round commits min(per_round_amount, remaining), so in
bounded mode total_operated never passes the target; with target 50 and
per-round amount 20 the committed amounts of any run form an initial segment
of [20, 20, 10] — hence at most 3 rounds, with the final round clamped to 10
— and a run of settled rounds commits exactly [20, 20, 10]. -/
theorem C8_round_amount_clamped :
    (∀ (per t : ℚ) (st : CycleState) (outs : List RoundOutcome),
      st.total_operated ≤ t →
      (runCycle per (some t) st outs).1.total_operated ≤ t) ∧
    (∀ outs : List RoundOutcome,
      ∃ t2, (runCycle 20 (some 50) initState outs).2 ++ t2 = [20, 20, 10]) ∧
    (∀ outs : List RoundOutcome,
      (runCycle 20 (some 50) initState outs).2.length ≤ 3) ∧
    (runCycle 20 (some 50) initState
        (List.replicate 5 (RoundOutcome.settled 0))).2 = [20, 20, 10] := by
  refine ⟨fun per t st outs h => runCycle_operated_le per t outs st h,
    fun outs => ?_, fun outs => ?_,
    by norm_num [runCycle, initState, List.replicate, consAmt]⟩
  · have h := runCycle_committed_front outs initState (Or.inl rfl)
    simpa [expectedRest, initState] using h
  · obtain ⟨t2, ht2⟩ := runCycle_committed_front outs initState (Or.inl rfl)
    have hlen := congrArg List.length ht2
    simp only [List.length_append] at hlen
    have h3 : expectedRest initState.total_operated = [20, 20, 10] := by
      norm_num [expectedRest, initState]
    rw [h3] at hlen
    simp at hlen
    omega

/-- Witness for C8 at the empty outcome list from the initial state. -/
theorem C8_round_amount_clamped_witness :
    (runCycle 20 (some 50) initState []).1.total_operated ≤ 50 :=
  C8_round_amount_clamped.1 20 50 initState [] (by decide)

end RwUsd
